import Mathlib

/-!
Verification development for the grafana exchange monitor repository.

The TypeScript sources are shallowly embedded over exact rational
arithmetic (`ℚ`):

* JavaScript `Number(x.toFixed(2))` is modelled by `round2`, following the
  ECMAScript `toFixed` rule (round half toward positive infinity at the
  second decimal).
* A JavaScript division whose result is non-finite (`NaN` or `±Infinity`,
  arising from a zero divisor) is modelled by `Option ℚ`, with `none`
  standing for the non-finite result.
* The authenticated network sub-calls of a fetch cycle are modelled as
  `Except Unit _` inputs: `.ok` carries the parsed response, `.error ()`
  models a rejected promise.
* `getExchangeData` returns a pair `(returned value, new lastValidData)`,
  making the degrade-to-last-known-good behaviour of the clients explicit.
-/

namespace ExchangeMonitor

/-- Models `Number(x.toFixed(2))` on a finite value: ECMAScript `toFixed`
picks the closest 2-decimal value, ties going to the larger one. -/
def round2 (x : ℚ) : ℚ := ((⌊x * 100 + 1/2⌋ : ℤ) : ℚ) / 100

/-- Position side, `'LONG' | 'SHORT'` in `position.model.ts`. -/
inductive Side where
  | LONG
  | SHORT
deriving DecidableEq

/-- Margin mode, `'CROSS' | 'ISOLATED'` in `position.model.ts`. -/
inductive MarginMode where
  | CROSS
  | ISOLATED
deriving DecidableEq

/-- The canonical normalized position shape (`position.model.ts`). -/
structure Position where
  symbol : String
  side : Side
  size : ℚ
  notionalValue : ℚ
  entryPrice : ℚ
  markPrice : ℚ
  liquidationPrice : ℚ
  liquidationPriceChangePercent : ℚ
  currentFundingRate : ℚ
  nextFundingRate : ℚ
  leverage : ℚ
  unrealizedPnl : ℚ
  realizedPnl : ℚ
  marginMode : MarginMode
  exchange : String
deriving DecidableEq

/-- Per (exchange, account) aggregate (`position.model.ts`).
`accountMarginRatio` is `Option ℚ` because the Binance futures branch can
produce a non-finite JavaScript number there (modelled as `none`). -/
structure AccountSummary where
  exchange : String
  accountId : String
  baseCurrency : String
  baseBalance : ℚ
  totalNotionalValue : ℚ
  accountLeverage : ℚ
  openPositionsCount : ℕ
  openOrdersCount : ℕ
  accountMarginRatio : Option ℚ
  liquidationBuffer : ℚ
deriving DecidableEq

/-- One client snapshot (`position.model.ts`). -/
structure ExchangeData where
  positions : List Position
  accountSummary : AccountSummary
deriving DecidableEq

/-- Bool test that `sub` is an initial segment of `s`. -/
def startsList : List Char → List Char → Bool
  | _, [] => true
  | [], _ :: _ => false
  | c :: cs, d :: ds => c == d && startsList cs ds

/-- Bool test that `sub` occurs contiguously inside `s`. -/
def containsList : List Char → List Char → Bool
  | [], sub => sub.isEmpty
  | c :: cs, sub => startsList (c :: cs) sub || containsList cs sub

/-- Models JavaScript `String.prototype.includes` (substring test). -/
def jsIncludes (s sub : String) : Bool := containsList s.toList sub.toList

namespace BinanceClient

/-- Raw `/fapi/v2/positionRisk` record, fields already parsed from their
string form (`binance.client.ts`, futures branch of `processPositions`). -/
structure RawFuturesPosition where
  symbol : String
  positionAmt : ℚ
  entryPrice : ℚ
  markPrice : ℚ
  leverage : ℚ
  unRealizedProfit : ℚ
  liquidationPrice : ℚ
  marginType : String
deriving DecidableEq

/-- Raw portfolio-margin position record after the `||` field fallbacks of
the portfolio-margin branch of `processPositions` have been applied. -/
structure RawPMPosition where
  symbol : String
  positionAmt : ℚ
  entryPrice : ℚ
  markPrice : ℚ
  leverage : ℚ
  unRealizedProfit : ℚ
  liquidationPrice : ℚ
  marginType : String
deriving DecidableEq

/-- One funding-rate record from `getFundingRates` (premium index entry with
the 30-sample average attached as `nextFundingRate`). -/
structure FundingRate where
  symbol : String
  lastFundingRate : ℚ
  nextFundingRate : ℚ
deriving DecidableEq

/-- Parsed `/fapi/v2/account` totals used by `processAccountSummary`. -/
structure FuturesAccountInfo where
  totalMarginBalance : ℚ
  totalMaintMargin : ℚ
deriving DecidableEq

/-- Parsed `/papi/v1/account` totals used by `processAccountSummary`. -/
structure PMAccountInfo where
  actualEquity : ℚ
  accountMaintMargin : ℚ
  accountInitialMargin : ℚ
deriving DecidableEq

/-- `BinanceClient.calculateLiquidationDistance` (binance.client.ts:406). -/
def calculateLiquidationDistance (markPrice liquidationPrice : ℚ) : ℚ :=
  if liquidationPrice = 0 then 0
  else round2 (|markPrice - liquidationPrice| / markPrice * 100)

/-- `fundingRates.find(fr => fr.symbol === symbol)`. -/
def findFundingRate (fundingRates : List FundingRate) (symbol : String) :
    Option FundingRate :=
  fundingRates.find? (fun fr => fr.symbol == symbol)

/-- `fundingRate ? parseFloat(fundingRate.lastFundingRate) * 100 : 0`. -/
def lastFundingRateOrZero (fr : Option FundingRate) : ℚ :=
  match fr with
  | some fr => fr.lastFundingRate * 100
  | none => 0

/-- `fundingRate ? parseFloat(fundingRate.nextFundingRate) * 100 : 0`. -/
def nextFundingRateOrZero (fr : Option FundingRate) : ℚ :=
  match fr with
  | some fr => fr.nextFundingRate * 100
  | none => 0

/-- Body of the futures (non-portfolio-margin) branch of `processPositions`
(binance.client.ts:365-395), for one raw record. -/
def processFuturesPosition (fundingRates : List FundingRate)
    (pos : RawFuturesPosition) : Position :=
  let fundingRate := findFundingRate fundingRates pos.symbol
  let positionSize := round2 pos.positionAmt
  let entryPrice := round2 pos.entryPrice
  let markPrice := round2 pos.markPrice
  let leverage := round2 pos.leverage
  let unrealizedPnl := round2 pos.unRealizedProfit
  let liquidationPrice := round2 pos.liquidationPrice
  let notionalValue := round2 |positionSize * markPrice|
  let liquidationDistance :=
    round2 (calculateLiquidationDistance markPrice liquidationPrice)
  let currentFundingRate := round2 (lastFundingRateOrZero fundingRate)
  let nextFundingRate := round2 (nextFundingRateOrZero fundingRate)
  { symbol := pos.symbol
    side := if positionSize > 0 then Side.LONG else Side.SHORT
    size := |positionSize|
    notionalValue := notionalValue
    entryPrice := entryPrice
    markPrice := markPrice
    liquidationPrice := liquidationPrice
    liquidationPriceChangePercent := liquidationDistance
    currentFundingRate := currentFundingRate
    nextFundingRate := nextFundingRate
    leverage := leverage
    unrealizedPnl := unrealizedPnl
    realizedPnl := 0
    marginMode :=
      if pos.marginType.toLower == "cross" then MarginMode.CROSS
      else MarginMode.ISOLATED
    exchange := "binance" }

/-- Futures branch of `processPositions` (binance.client.ts:363-397):
filter out zero-size records, then normalize each one. -/
def processPositionsFutures (positionsData : List RawFuturesPosition)
    (fundingRates : List FundingRate) : List Position :=
  (positionsData.filter (fun pos => decide (0 < |pos.positionAmt|))).map
    (processFuturesPosition fundingRates)

/-- Body of the portfolio-margin branch of `processPositions`
(binance.client.ts:245-357), for one raw record: liquidation-price
estimation fallback (lines 267-298), then COIN-M or USDT-M shaping. -/
def processPMPosition (fundingRates : List FundingRate)
    (pos : RawPMPosition) : Position :=
  let positionAmt := pos.positionAmt
  let entryPrice := pos.entryPrice
  let markPrice := pos.markPrice
  let leverage := pos.leverage
  let unrealizedProfit := pos.unRealizedProfit
  let marginType := pos.marginType
  let isCoinM := jsIncludes pos.symbol "_" || jsIncludes pos.symbol "USD_"
  let maintenanceMarginRatio : ℚ := 13/1000
  let liquidationPrice :=
    if pos.liquidationPrice = 0 ∨ pos.liquidationPrice < 1/1000 then
      if isCoinM then
        if positionAmt < 0 then
          markPrice * (1 + (maintenanceMarginRatio + 1 / leverage + 5/1000))
        else
          markPrice * (1 - maintenanceMarginRatio)
      else
        if positionAmt < 0 then
          markPrice * (1 + 1 / leverage + maintenanceMarginRatio)
        else
          markPrice * (1 - 1 / leverage - maintenanceMarginRatio)
    else pos.liquidationPrice
  let liquidationDistance := calculateLiquidationDistance markPrice liquidationPrice
  if isCoinM then
    let positionSizeUSDT := positionAmt * markPrice
    let notionalValue := round2 positionSizeUSDT
    { symbol := pos.symbol
      side := if positionAmt > 0 then Side.LONG else Side.SHORT
      size := |positionAmt|
      notionalValue := notionalValue
      entryPrice := round2 entryPrice
      markPrice := round2 markPrice
      liquidationPrice := round2 liquidationPrice
      liquidationPriceChangePercent := round2 liquidationDistance
      currentFundingRate := 0
      nextFundingRate := 0
      leverage := round2 leverage
      unrealizedPnl := round2 unrealizedProfit
      realizedPnl := 0
      marginMode :=
        if marginType.toLower == "cross" then MarginMode.CROSS
        else MarginMode.ISOLATED
      exchange := "binance" }
  else
    let fundingRate := findFundingRate fundingRates pos.symbol
    let positionSize := round2 positionAmt
    let notionalValue := round2 |positionSize * markPrice|
    let currentFundingRate := round2 (lastFundingRateOrZero fundingRate)
    let nextFundingRate := round2 (nextFundingRateOrZero fundingRate)
    { symbol := pos.symbol
      side := if positionSize > 0 then Side.LONG else Side.SHORT
      size := |positionSize|
      notionalValue := notionalValue
      entryPrice := round2 entryPrice
      markPrice := round2 markPrice
      liquidationPrice := round2 liquidationPrice
      liquidationPriceChangePercent := liquidationDistance
      currentFundingRate := currentFundingRate
      nextFundingRate := nextFundingRate
      leverage := round2 leverage
      unrealizedPnl := round2 unrealizedProfit
      realizedPnl := 0
      marginMode :=
        if marginType.toLower == "cross" then MarginMode.CROSS
        else MarginMode.ISOLATED
      exchange := "binance" }

/-- `accountLeverage` of `processAccountSummary` (binance.client.ts:502-503):
plain arithmetic mean of the per-position leverages. -/
def accountLeverage (positions : List Position) : ℚ :=
  let totalLeverage := (positions.map Position.leverage).sum
  if positions.length > 0 then
    round2 (totalLeverage / (positions.length : ℚ))
  else 0

/-- Futures-branch `marginRatio` (binance.client.ts:515). The division is
not guarded: a zero `totalMarginBalance` produces a non-finite JavaScript
number, modelled as `none`. -/
def futuresMarginRatio (accountInfo : FuturesAccountInfo) : Option ℚ :=
  let totalMarginBalance := round2 accountInfo.totalMarginBalance
  let totalMaintenanceMargin := round2 accountInfo.totalMaintMargin
  if totalMarginBalance = 0 then none
  else some (round2 (totalMaintenanceMargin / totalMarginBalance * 100))

/-- Futures-branch `liquidationBuffer` (binance.client.ts:516-518). -/
def futuresLiquidationBuffer (accountInfo : FuturesAccountInfo) : ℚ :=
  let totalMarginBalance := round2 accountInfo.totalMarginBalance
  let totalMaintenanceMargin := round2 accountInfo.totalMaintMargin
  let calculatedBuffer :=
    if totalMaintenanceMargin > 0 then
      round2 ((totalMarginBalance - totalMaintenanceMargin) /
        totalMaintenanceMargin * 100)
    else 0
  min calculatedBuffer 100

/-- Portfolio-margin-branch `marginRatio` (binance.client.ts:532-533). -/
def pmMarginRatio (accountInfo : PMAccountInfo) : ℚ :=
  let totalBalance := round2 accountInfo.actualEquity
  let maintenanceMargin := round2 accountInfo.accountMaintMargin
  if maintenanceMargin > 0 ∧ totalBalance > 0 then
    round2 (maintenanceMargin / totalBalance * 100)
  else 0

/-- Portfolio-margin-branch `liquidationBuffer` (binance.client.ts:536-538). -/
def pmLiquidationBuffer (accountInfo : PMAccountInfo) : ℚ :=
  let totalBalance := round2 accountInfo.actualEquity
  let maintenanceMargin := round2 accountInfo.accountMaintMargin
  let calculatedBuffer :=
    if maintenanceMargin > 0 then
      round2 ((totalBalance - maintenanceMargin) / maintenanceMargin * 100)
    else 0
  min calculatedBuffer 100

/-- `processAccountSummary`, futures branch (binance.client.ts:488-570).
`baseBalance` is the result of `calculateTotalUSDTBalance`, an independent
best-effort network computation, passed in as a parameter. -/
def processAccountSummaryFutures (accountInfo : FuturesAccountInfo)
    (positions : List Position) (openOrdersCount : ℕ) (baseBalance : ℚ) :
    AccountSummary :=
  { exchange := "binance"
    accountId := "futures"
    baseCurrency := "USDT"
    baseBalance := baseBalance
    totalNotionalValue := (positions.map Position.notionalValue).sum
    accountLeverage := accountLeverage positions
    openPositionsCount := positions.length
    openOrdersCount := openOrdersCount
    accountMarginRatio := futuresMarginRatio accountInfo
    liquidationBuffer := futuresLiquidationBuffer accountInfo }

/-- `processAccountSummary`, portfolio-margin branch
(binance.client.ts:519-553): `baseBalance` is the rounded `actualEquity`. -/
def processAccountSummaryPM (accountInfo : PMAccountInfo)
    (positions : List Position) (openOrdersCount : ℕ) : AccountSummary :=
  { exchange := "binance"
    accountId := "portfolioMargin"
    baseCurrency := "USDT"
    baseBalance := round2 accountInfo.actualEquity
    totalNotionalValue := (positions.map Position.notionalValue).sum
    accountLeverage := accountLeverage positions
    openPositionsCount := positions.length
    openOrdersCount := openOrdersCount
    accountMarginRatio := some (pmMarginRatio accountInfo)
    liquidationBuffer := pmLiquidationBuffer accountInfo }

/-- The `lastValidData` set by the constructor (binance.client.ts:33-47). -/
def initialLastValidData (accountId : String) : ExchangeData :=
  { positions := []
    accountSummary :=
      { exchange := "binance"
        accountId := accountId
        baseCurrency := "USDT"
        baseBalance := 0
        totalNotionalValue := 0
        accountLeverage := 0
        openPositionsCount := 0
        openOrdersCount := 0
        accountMarginRatio := some 0
        liquidationBuffer := 0 } }

/-- Outcomes of the network sub-calls issued by one futures fetch cycle.
The three `Promise.all` members can each reject; `getFundingRates` catches
its own failures, so a funding failure is visible only as the `.error`
constructor here. `baseBalance` is the (never-throwing) result of
`calculateTotalUSDTBalance`. -/
structure FuturesSubCalls where
  accountInfo : Except Unit FuturesAccountInfo
  positionsData : Except Unit (List RawFuturesPosition)
  openOrders : Except Unit (List Unit)
  fundingRates : Except Unit (List FundingRate)
  baseBalance : ℚ

/-- `getExchangeData` for the futures account type (binance.client.ts:205-240).
Returns `(returned value, new lastValidData)`: on success both are the fresh
snapshot; if any `Promise.all` member rejects, the `catch` returns the
previous `lastValidData` unchanged. A funding-rates failure is swallowed
(`getFundingRates` returns `[]`) and the cycle still succeeds. -/
def getExchangeDataFutures (lastValidData : ExchangeData)
    (calls : FuturesSubCalls) : ExchangeData × ExchangeData :=
  match calls.accountInfo, calls.positionsData, calls.openOrders with
  | .ok accountInfo, .ok positionsData, .ok openOrders =>
    let fundingRates :=
      match calls.fundingRates with
      | .ok rates => rates
      | .error _ => []
    let positions := processPositionsFutures positionsData fundingRates
    let accountSummary :=
      processAccountSummaryFutures accountInfo positions openOrders.length
        calls.baseBalance
    let data : ExchangeData :=
      { positions := positions, accountSummary := accountSummary }
    (data, data)
  | _, _, _ => (lastValidData, lastValidData)

end BinanceClient

namespace BybitClient

/-- Raw `/v5/position/list` record (USDT and USDC pools merged and already
filtered to non-zero size by `getPositions`), fields parsed from strings. -/
structure RawPosition where
  symbol : String
  size : ℚ
  avgPrice : ℚ
  markPrice : ℚ
  side : String
  leverage : ℚ
  unrealisedPnl : ℚ
  cumRealisedPnl : ℚ
  positionValue : ℚ
  walletBalance : ℚ
  tradeMode : ℕ
deriving DecidableEq

/-- One `/v5/market/tickers` entry as used by `mapPosition`:
`nextFundingRate` is `none` when the field is absent (the `||` fallback
then reuses `fundingRate`). -/
structure Ticker where
  symbol : String
  fundingRate : ℚ
  nextFundingRate : Option ℚ
deriving DecidableEq

/-- Parsed `/v5/account/wallet-balance` totals used by `getExchangeData`. -/
structure AccountInfo where
  totalEquity : ℚ
  totalInitialMargin : ℚ
  totalMaintenanceMargin : ℚ
deriving DecidableEq

/-- `BybitClient.calculateLiquidationDistance` (bybit client:337-340):
direction-aware signed distance, not an absolute value. -/
def calculateLiquidationDistance (markPrice liquidationPrice : ℚ)
    (side : Side) : ℚ :=
  if liquidationPrice = 0 then 0
  else
    round2 ((if side = Side.LONG then liquidationPrice - markPrice
      else markPrice - liquidationPrice) / markPrice * 100)

/-- `BybitClient.calculateLiquidationPrice` (bybit client:342-364). -/
def calculateLiquidationPrice (entryPrice positionSize availableBalance
    initialMargin maintenanceMargin : ℚ) (side : Side) : ℚ :=
  if positionSize = 0 then 0
  else
    let marginDiff := availableBalance + initialMargin - maintenanceMargin
    if side = Side.LONG then
      round2 (entryPrice - marginDiff / |positionSize|)
    else
      round2 (entryPrice + marginDiff / |positionSize|)

/-- `fundingRate ? parseFloat(fundingRate.fundingRate) * 100 : 0`. -/
def currentFundingRateOrZero (fr : Option Ticker) : ℚ :=
  match fr with
  | some fr => fr.fundingRate * 100
  | none => 0

/-- `parseFloat(fundingRate.nextFundingRate || fundingRate.fundingRate) * 100`
with 0 when no ticker matched. -/
def nextFundingRateOrZero (fr : Option Ticker) : ℚ :=
  match fr with
  | some fr => fr.nextFundingRate.getD fr.fundingRate * 100
  | none => 0

/-- `BybitClient.mapPosition` (bybit client:366-415). The data-model
invariant `leverage > 0` for an open position is assumed by the source
(`initialMargin = notionalValue / leverage`). -/
def mapPosition (pos : RawPosition) (fundingRate : Option Ticker) : Position :=
  let size := round2 |pos.size|
  let entryPrice := round2 pos.avgPrice
  let markPrice := round2 pos.markPrice
  let side := if pos.side == "Buy" then Side.LONG else Side.SHORT
  let leverage := round2 pos.leverage
  let unrealizedPnl := round2 pos.unrealisedPnl
  let realizedPnl := round2 pos.cumRealisedPnl
  let notionalValue := round2 pos.positionValue
  let initialMargin := notionalValue / leverage
  let maintenanceMargin := initialMargin * (4/10)
  let availableBalance := round2 pos.walletBalance
  let liquidationPrice :=
    calculateLiquidationPrice entryPrice size availableBalance initialMargin
      maintenanceMargin side
  let currentFundingRate := round2 (currentFundingRateOrZero fundingRate)
  let nextFundingRate := round2 (nextFundingRateOrZero fundingRate)
  let liquidationDistance :=
    round2 (calculateLiquidationDistance markPrice liquidationPrice side)
  { symbol := pos.symbol
    side := side
    size := size
    notionalValue := notionalValue
    entryPrice := entryPrice
    markPrice := markPrice
    liquidationPrice := liquidationPrice
    liquidationPriceChangePercent := liquidationDistance
    currentFundingRate := currentFundingRate
    nextFundingRate := nextFundingRate
    leverage := leverage
    unrealizedPnl := unrealizedPnl
    realizedPnl := realizedPnl
    marginMode := if pos.tradeMode = 1 then MarginMode.ISOLATED else MarginMode.CROSS
    exchange := "bybit" }

/-- `BybitClient.processPositions` (bybit client:522-530). -/
def processPositions (positionsData : List RawPosition)
    (fundingRates : List Ticker) : List Position :=
  positionsData.map (fun pos =>
    mapPosition pos (fundingRates.find? (fun fr => fr.symbol == pos.symbol)))

/-- `BybitClient.calculateTotalNotionalValue` (bybit client:509-520):
recomputes notional as `|size| * markPrice` from normalized positions. -/
def calculateTotalNotionalValue (positions : List Position) : ℚ :=
  round2 ((positions.map (fun p => |p.size| * p.markPrice)).sum)

/-- Weighted `accountLeverage` of `getExchangeData` (bybit client:551-561). -/
def accountLeverageCalc (positions : List Position)
    (totalNotionalValue : ℚ) : ℚ :=
  if positions.length > 0 then
    let weightedLeverageSum :=
      (positions.map (fun p => p.leverage * p.notionalValue)).sum
    if totalNotionalValue > 0 then
      round2 (weightedLeverageSum / totalNotionalValue)
    else 0
  else 0

/-- `marginRatio` of `getExchangeData` (bybit client:569-570). -/
def marginRatio (accountInfo : AccountInfo) : ℚ :=
  let totalEquity := round2 accountInfo.totalEquity
  let totalMaintenanceMargin := round2 accountInfo.totalMaintenanceMargin
  if totalEquity > 0 then
    round2 (totalMaintenanceMargin / totalEquity * 100)
  else 0

/-- Uncapped `liquidationBuffer` of `getExchangeData` (bybit client:573-574);
the cap to 100 is applied when the summary is assembled (line 591). -/
def liquidationBuffer (accountInfo : AccountInfo) : ℚ :=
  let totalEquity := round2 accountInfo.totalEquity
  let totalMaintenanceMargin := round2 accountInfo.totalMaintenanceMargin
  if totalMaintenanceMargin > 0 then
    round2 ((totalEquity - totalMaintenanceMargin) /
      totalMaintenanceMargin * 100)
  else 0

/-- The `accountSummary` assembled by `getExchangeData`
(bybit client:581-592). -/
def assembleAccountSummary (accountInfo : AccountInfo)
    (positions : List Position) (openOrdersCount : ℕ) (baseBalance : ℚ) :
    AccountSummary :=
  { exchange := "bybit"
    accountId := "unified"
    baseCurrency := "USDT"
    baseBalance := baseBalance
    totalNotionalValue := calculateTotalNotionalValue positions
    accountLeverage :=
      accountLeverageCalc positions (calculateTotalNotionalValue positions)
    openPositionsCount := positions.length
    openOrdersCount := openOrdersCount
    accountMarginRatio := some (marginRatio accountInfo)
    liquidationBuffer := min (liquidationBuffer accountInfo) 100 }

/-- The `lastValidData` set by the constructor (bybit client:234-248). -/
def initialLastValidData : ExchangeData :=
  { positions := []
    accountSummary :=
      { exchange := "bybit"
        accountId := "unified"
        baseCurrency := "USDT"
        baseBalance := 0
        totalNotionalValue := 0
        accountLeverage := 0
        openPositionsCount := 0
        openOrdersCount := 0
        accountMarginRatio := some 0
        liquidationBuffer := 0 } }

/-- Outcomes of the network sub-calls of one Bybit fetch cycle. Unlike the
Binance client, the funding-rates request (`getFundingRates`, called inside
`processPositions`) does not catch its own failures, so its rejection
aborts the whole cycle. `baseBalance` is the (never-throwing) result of
`calculateTotalUSDTBalance`. -/
structure SubCalls where
  accountInfo : Except Unit AccountInfo
  positionsData : Except Unit (List RawPosition)
  openOrders : Except Unit (List Unit)
  fundingRates : Except Unit (List Ticker)
  baseBalance : ℚ

/-- `BybitClient.getExchangeData` (bybit client:532-605). Returns
`(returned value, new lastValidData)`: any sub-call rejection reaches the
`catch`, which returns the previous `lastValidData` unchanged. -/
def getExchangeData (lastValidData : ExchangeData) (calls : SubCalls) :
    ExchangeData × ExchangeData :=
  match calls.accountInfo, calls.positionsData, calls.openOrders,
      calls.fundingRates with
  | .ok accountInfo, .ok positionsData, .ok openOrders, .ok fundingRates =>
    let positions := processPositions positionsData fundingRates
    let accountSummary :=
      assembleAccountSummary accountInfo positions openOrders.length
        calls.baseBalance
    let data : ExchangeData :=
      { positions := positions, accountSummary := accountSummary }
    (data, data)
  | _, _, _, _ => (lastValidData, lastValidData)

end BybitClient

namespace DataFetcherService

/-- Per-(exchange, account) scheduler state: the entries of `errorCounts`
and `backoffTimes` in `dataFetcherService.ts` (missing entries read as 0).
Times are in milliseconds. -/
structure FetchState where
  errorCount : ℕ
  backoffUntil : ℕ
deriving DecidableEq

/-- `MAX_CONSECUTIVE_ERRORS` (dataFetcherService.ts:49). -/
def MAX_CONSECUTIVE_ERRORS : ℕ := 5

/-- `INITIAL_BACKOFF` in milliseconds (dataFetcherService.ts:51). -/
def INITIAL_BACKOFF : ℕ := 60000

/-- Effect of `fetchExchangeData` (dataFetcherService.ts:177-219) on the
error/backoff state of one key. `result` is the outcome of
`client.getExchangeData()` (`.error` when the awaited promise rejects); the
cache and `lastFetchTimes` updates of the success path are not part of
this state. -/
def fetchExchangeData (now : ℕ) (st : FetchState)
    (result : Except Unit ExchangeData) : FetchState :=
  if st.backoffUntil > now then st
  else
    match result with
    | .ok _ => { errorCount := 0, backoffUntil := 0 }
    | .error _ =>
      let errorCount := st.errorCount + 1
      if errorCount ≥ MAX_CONSECUTIVE_ERRORS then
        { errorCount := errorCount
          backoffUntil := now + INITIAL_BACKOFF *
            2 ^ (min (errorCount - MAX_CONSECUTIVE_ERRORS) 5) }
      else
        { errorCount := errorCount, backoffUntil := st.backoffUntil }

/-- `CombinedData` (position.model.ts), with the string-keyed objects
modelled as association lists. -/
structure CombinedData where
  exchanges : List (String × List (String × ExchangeData))
  currentExchange : String
  currentAccount : String
  availableExchanges : List String
  availableAccounts : List (String × List String)

/-- Key lookup in an association list, modelling `obj[key]`. -/
def lookupList {α : Type} (m : List (String × α)) (key : String) : Option α :=
  (m.find? (fun kv => kv.fst == key)).map Prod.snd

/-- The initial in-memory cache `cachedData` (dataFetcherService.ts:20-34). -/
def initialCachedData : CombinedData :=
  { exchanges := [("binance", []), ("bybit", [])]
    currentExchange := "binance"
    currentAccount := "futures"
    availableExchanges := ["binance", "bybit"]
    availableAccounts :=
      [("binance", ["futures", "portfolioMargin"]), ("bybit", ["unified"])] }

/-- `setCurrentExchangeAndAccount` (dataFetcherService.ts:256-264): the
success branch assigns exactly the two selection pointers; the `else`
branch throws (`.error`). A missing `availableAccounts` key reads as the
empty list, which like the source ends on the error path with no
mutation. -/
def setCurrentExchangeAndAccount (cachedData : CombinedData)
    (exchange account : String) : Except String CombinedData :=
  if cachedData.availableExchanges.contains exchange &&
      ((lookupList cachedData.availableAccounts exchange).getD []).contains
        account then
    .ok { cachedData with
      currentExchange := exchange
      currentAccount := account }
  else
    .error "Invalid exchange or account"

/-- A thrown `setCurrentExchangeAndAccount` leaves the module-level
`cachedData` untouched: run the call against a state, returning the state
after the call and whether it succeeded. -/
def setCurrentRun (cachedData : CombinedData) (exchange account : String) :
    CombinedData × Bool :=
  match setCurrentExchangeAndAccount cachedData exchange account with
  | .ok d => (d, true)
  | .error _ => (cachedData, false)

/-- The module-level mutable state of `dataFetcherService.ts`: the cache
plus the per-key bookkeeping maps (lines 20-56). -/
structure ServiceState where
  cachedData : CombinedData
  lastFetchTimes : List ((String × String) × ℕ)
  errorCounts : List ((String × String) × ℕ)
  backoffTimes : List ((String × String) × ℕ)

/-- `setCurrentExchangeAndAccount` viewed as acting on the whole service
state: it only ever touches `cachedData`. -/
def serviceSetCurrent (s : ServiceState) (exchange account : String) :
    ServiceState × Bool :=
  let r := setCurrentRun s.cachedData exchange account
  ({ s with cachedData := r.1 }, r.2)

end DataFetcherService

/-- The raw record of the end-to-end scenario, futures shape:
`{symbol:'BTCUSDT', positionAmt:'-0.5', markPrice:'60000', leverage:'10',
entryPrice:'61000', liquidationPrice:'0'}` (marginType defaults). -/
def rawBtc : BinanceClient.RawFuturesPosition :=
  { symbol := "BTCUSDT"
    positionAmt := -1/2
    entryPrice := 61000
    markPrice := 60000
    leverage := 10
    unRealizedProfit := 0
    liquidationPrice := 0
    marginType := "cross" }

/-- The same raw record, portfolio-margin shape. -/
def rawBtcPM : BinanceClient.RawPMPosition :=
  { symbol := "BTCUSDT"
    positionAmt := -1/2
    entryPrice := 61000
    markPrice := 60000
    leverage := 10
    unRealizedProfit := 0
    liquidationPrice := 0
    marginType := "cross" }

/-- A normalized position with notional 1000 at 10x leverage
(size 1 at mark 1000), for the weighted-leverage example. -/
def weightedPositionA : Position :=
  { symbol := "AAAUSDT"
    side := Side.LONG
    size := 1
    notionalValue := 1000
    entryPrice := 1000
    markPrice := 1000
    liquidationPrice := 0
    liquidationPriceChangePercent := 0
    currentFundingRate := 0
    nextFundingRate := 0
    leverage := 10
    unrealizedPnl := 0
    realizedPnl := 0
    marginMode := MarginMode.CROSS
    exchange := "binance" }

/-- A normalized position with notional 3000 at 5x leverage
(size 1 at mark 3000), for the weighted-leverage example. -/
def weightedPositionB : Position :=
  { symbol := "BBBUSDT"
    side := Side.LONG
    size := 1
    notionalValue := 3000
    entryPrice := 3000
    markPrice := 3000
    liquidationPrice := 0
    liquidationPriceChangePercent := 0
    currentFundingRate := 0
    nextFundingRate := 0
    leverage := 5
    unrealizedPnl := 0
    realizedPnl := 0
    marginMode := MarginMode.CROSS
    exchange := "binance" }

/-- The two-position list of the spec example: 1000@10x and 3000@5x. -/
def weightedExample : List Position := [weightedPositionA, weightedPositionB]

/-- Fold a sequence of failing fetch ticks (at the given times) through the
scheduler state of one key. -/
def runFailures (times : List ℕ) (st : DataFetcherService.FetchState) :
    DataFetcherService.FetchState :=
  times.foldl
    (fun s t => DataFetcherService.fetchExchangeData t s (.error ())) st

/-- Ten tick times, far enough apart that no tick lands inside the backoff
window set by the previous failure. -/
def tenFailureTimes : List ℕ :=
  [10000000, 20000000, 30000000, 40000000, 50000000,
   60000000, 70000000, 80000000, 90000000, 100000000]

/-- A Binance futures fetch cycle in which the three `Promise.all` calls
succeed (equity 1000, maintenance margin 100, one open position, no open
orders) but the funding-rates fetch fails. -/
def c3Calls : BinanceClient.FuturesSubCalls :=
  { accountInfo := .ok ⟨1000, 100⟩
    positionsData := .ok [rawBtc]
    openOrders := .ok []
    fundingRates := .error ()
    baseBalance := 500 }

theorem round2_mono {x y : ℚ} (h : x ≤ y) : round2 x ≤ round2 y := by
  unfold round2
  have h2 : x * 100 + 1/2 ≤ y * 100 + 1/2 := by nlinarith
  have h3 : ((⌊x * 100 + 1/2⌋ : ℤ) : ℚ) ≤ ((⌊y * 100 + 1/2⌋ : ℤ) : ℚ) := by
    exact_mod_cast Int.floor_mono h2
  linarith

theorem round2_zero : round2 0 = 0 := by norm_num [round2]

theorem round2_nonneg {x : ℚ} (hx : 0 ≤ x) : 0 ≤ round2 x := by
  have := round2_mono hx
  rwa [round2_zero] at this

theorem round2_nonpos {x : ℚ} (hx : x ≤ 0) : round2 x ≤ 0 := by
  have := round2_mono hx
  rwa [round2_zero] at this

/-- All three liquidation-buffer computations share one shape: round the two
totals, divide the headroom by the maintenance margin when it is positive
(0 otherwise), and clamp from above at 100. This lemma collects the bounds
that hold for that shape on non-negative inputs. -/
theorem clampedBuffer_bounds (e m : ℚ) (hm : 0 ≤ m) :
    min (if round2 m > 0 then
        round2 ((round2 e - round2 m) / round2 m * 100) else 0) 100 ≤ 100
    ∧ (m = 0 →
      min (if round2 m > 0 then
          round2 ((round2 e - round2 m) / round2 m * 100) else 0) 100 = 0)
    ∧ (m ≤ e →
      0 ≤ min (if round2 m > 0 then
          round2 ((round2 e - round2 m) / round2 m * 100) else 0) 100) := by
  refine ⟨min_le_right _ _, ?_, ?_⟩
  · rintro rfl
    rw [round2_zero]
    norm_num
  · intro hme
    by_cases hpos : round2 m > 0
    · rw [if_pos hpos]
      have hEM : round2 m ≤ round2 e := round2_mono hme
      have h1 : 0 ≤ (round2 e - round2 m) / round2 m * 100 := by
        apply mul_nonneg _ (by norm_num)
        exact div_nonneg (by linarith) hpos.le
      exact le_min (round2_nonneg h1) (by norm_num)
    · rw [if_neg hpos]
      norm_num

/-- C1: for every exchange variant (Binance futures, Binance
portfolio-margin, Bybit unified) and all non-negative equity and
maintenance-margin inputs, the computed liquidationBuffer is at most 100,
equals 0 when the maintenance margin is 0, and is non-negative whenever
equity is at least the maintenance margin. (The claim's full range [0,100]
does not hold: there is no lower clamp, so the buffer is negative when
equity < maintenanceMargin — see the counterexample.) -/
theorem c1_liquidationBuffer_amended (e m im tim bal : ℚ)
    (positions : List Position) (n : ℕ) (he : 0 ≤ e) (hm : 0 ≤ m) :
    ((BinanceClient.processAccountSummaryFutures ⟨e, m⟩ positions n
        bal).liquidationBuffer ≤ 100
      ∧ (m = 0 → (BinanceClient.processAccountSummaryFutures ⟨e, m⟩ positions
          n bal).liquidationBuffer = 0)
      ∧ (m ≤ e → 0 ≤ (BinanceClient.processAccountSummaryFutures ⟨e, m⟩
          positions n bal).liquidationBuffer))
    ∧ ((BinanceClient.processAccountSummaryPM ⟨e, m, im⟩ positions
        n).liquidationBuffer ≤ 100
      ∧ (m = 0 → (BinanceClient.processAccountSummaryPM ⟨e, m, im⟩ positions
          n).liquidationBuffer = 0)
      ∧ (m ≤ e → 0 ≤ (BinanceClient.processAccountSummaryPM ⟨e, m, im⟩
          positions n).liquidationBuffer))
    ∧ ((BybitClient.assembleAccountSummary ⟨e, tim, m⟩ positions n
        bal).liquidationBuffer ≤ 100
      ∧ (m = 0 → (BybitClient.assembleAccountSummary ⟨e, tim, m⟩ positions n
          bal).liquidationBuffer = 0)
      ∧ (m ≤ e → 0 ≤ (BybitClient.assembleAccountSummary ⟨e, tim, m⟩
          positions n bal).liquidationBuffer)) := by
  have h := clampedBuffer_bounds e m hm
  refine ⟨?_, ?_, ?_⟩
  · simpa [BinanceClient.processAccountSummaryFutures,
      BinanceClient.futuresLiquidationBuffer] using h
  · simpa [BinanceClient.processAccountSummaryPM,
      BinanceClient.pmLiquidationBuffer] using h
  · simpa [BybitClient.assembleAccountSummary,
      BybitClient.liquidationBuffer] using h

/-- Witness for C1 at equity 200, maintenance margin 100. -/
theorem c1_liquidationBuffer_amended_witness :
    ((BinanceClient.processAccountSummaryFutures ⟨200, 100⟩ [] 0
        0).liquidationBuffer ≤ 100
      ∧ ((100 : ℚ) = 0 → (BinanceClient.processAccountSummaryFutures
          ⟨200, 100⟩ [] 0 0).liquidationBuffer = 0)
      ∧ ((100 : ℚ) ≤ 200 → 0 ≤ (BinanceClient.processAccountSummaryFutures
          ⟨200, 100⟩ [] 0 0).liquidationBuffer))
    ∧ ((BinanceClient.processAccountSummaryPM ⟨200, 100, 0⟩ []
        0).liquidationBuffer ≤ 100
      ∧ ((100 : ℚ) = 0 → (BinanceClient.processAccountSummaryPM
          ⟨200, 100, 0⟩ [] 0).liquidationBuffer = 0)
      ∧ ((100 : ℚ) ≤ 200 → 0 ≤ (BinanceClient.processAccountSummaryPM
          ⟨200, 100, 0⟩ [] 0).liquidationBuffer))
    ∧ ((BybitClient.assembleAccountSummary ⟨200, 0, 100⟩ [] 0
        0).liquidationBuffer ≤ 100
      ∧ ((100 : ℚ) = 0 → (BybitClient.assembleAccountSummary ⟨200, 0, 100⟩
          [] 0 0).liquidationBuffer = 0)
      ∧ ((100 : ℚ) ≤ 200 → 0 ≤ (BybitClient.assembleAccountSummary
          ⟨200, 0, 100⟩ [] 0 0).liquidationBuffer)) :=
  c1_liquidationBuffer_amended 200 100 0 0 0 [] 0 (by norm_num) (by norm_num)

/-- C1 fails as stated: on the Binance futures variant with equity 50 and
maintenance margin 100 (both non-negative), the computed liquidationBuffer
is -50, outside [0,100]. -/
theorem c1_liquidationBuffer_counterexample :
    (BinanceClient.processAccountSummaryFutures ⟨50, 100⟩ [] 0
        0).liquidationBuffer = -50
    ∧ ¬ (0 ≤ (BinanceClient.processAccountSummaryFutures ⟨50, 100⟩ [] 0
        0).liquidationBuffer) := by
  have h : (BinanceClient.processAccountSummaryFutures ⟨50, 100⟩ [] 0
      0).liquidationBuffer = -50 := by
    simp only [BinanceClient.processAccountSummaryFutures,
      BinanceClient.futuresLiquidationBuffer]
    norm_num [round2]
  exact ⟨h, by rw [h]; norm_num⟩

/-- C2 (amended): only the Bybit client computes the notional-weighted
average leverage: for a non-empty position list whose notional values agree
with `|size| * markPrice` and whose notional sum is positive and stable
under 2-decimal rounding, its accountLeverage is the rounded weighted mean
Σ(leverage·notional)/Σ(notional); both clients return 0 for an empty list.
On the spec's example (1000@10x, 3000@5x) Bybit yields 6.25, while the
Binance clients compute the plain arithmetic mean of the leverages, 7.5. -/
theorem c2_accountLeverage_amended (l : List Position) (hne : l ≠ [])
    (hnot : ∀ p ∈ l, p.notionalValue = |p.size| * p.markPrice)
    (hst : round2 ((l.map Position.notionalValue).sum) =
      (l.map Position.notionalValue).sum)
    (hpos : 0 < (l.map Position.notionalValue).sum) :
    BybitClient.accountLeverageCalc l
        (BybitClient.calculateTotalNotionalValue l) =
      round2 ((l.map (fun p => p.leverage * p.notionalValue)).sum /
        (l.map Position.notionalValue).sum)
    ∧ BybitClient.accountLeverageCalc []
        (BybitClient.calculateTotalNotionalValue []) = 0
    ∧ BinanceClient.accountLeverage [] = 0
    ∧ BybitClient.accountLeverageCalc weightedExample
        (BybitClient.calculateTotalNotionalValue weightedExample) = 25/4
    ∧ BinanceClient.accountLeverage weightedExample = 15/2 := by
  refine ⟨?_, ?_, ?_, ?_, ?_⟩
  · have hmap : l.map (fun p => |p.size| * p.markPrice) =
        l.map Position.notionalValue :=
      List.map_congr_left (fun p hp => (hnot p hp).symm)
    unfold BybitClient.accountLeverageCalc BybitClient.calculateTotalNotionalValue
    rw [hmap, hst, if_pos (List.length_pos_iff_ne_nil.mpr hne), if_pos hpos]
  · simp [BybitClient.accountLeverageCalc]
  · simp [BinanceClient.accountLeverage]
  · norm_num [BybitClient.accountLeverageCalc,
      BybitClient.calculateTotalNotionalValue, weightedExample,
      weightedPositionA, weightedPositionB, round2]
  · norm_num [BinanceClient.accountLeverage, weightedExample,
      weightedPositionA, weightedPositionB, round2]

/-- Witness for C2 at the spec's example list. -/
theorem c2_accountLeverage_amended_witness :
    BybitClient.accountLeverageCalc weightedExample
        (BybitClient.calculateTotalNotionalValue weightedExample) =
      round2 ((weightedExample.map
          (fun p => p.leverage * p.notionalValue)).sum /
        (weightedExample.map Position.notionalValue).sum)
    ∧ BybitClient.accountLeverageCalc []
        (BybitClient.calculateTotalNotionalValue []) = 0
    ∧ BinanceClient.accountLeverage [] = 0
    ∧ BybitClient.accountLeverageCalc weightedExample
        (BybitClient.calculateTotalNotionalValue weightedExample) = 25/4
    ∧ BinanceClient.accountLeverage weightedExample = 15/2 :=
  c2_accountLeverage_amended weightedExample (by simp [weightedExample])
    (by
      intro p hp
      simp only [weightedExample, List.mem_cons, List.mem_singleton] at hp
      rcases hp with rfl | rfl | h
      · norm_num [weightedPositionA]
      · norm_num [weightedPositionB]
      · exact absurd h (List.not_mem_nil p))
    (by norm_num [weightedExample, weightedPositionA, weightedPositionB,
      round2])
    (by norm_num [weightedExample, weightedPositionA, weightedPositionB])

/-- C2 fails as stated for the Binance clients: on the spec's own example
(notional 1000 at 10x, 3000 at 5x) the Binance accountLeverage is the
unweighted mean 7.5, not the notional-weighted 6.25 that the Bybit
computation produces for the same list. -/
theorem c2_accountLeverage_counterexample :
    BinanceClient.accountLeverage weightedExample = 15/2
    ∧ BinanceClient.accountLeverage weightedExample ≠ 25/4
    ∧ BybitClient.accountLeverageCalc weightedExample
        (BybitClient.calculateTotalNotionalValue weightedExample) = 25/4 := by
  have h : BinanceClient.accountLeverage weightedExample = 15/2 := by
    norm_num [BinanceClient.accountLeverage, weightedExample,
      weightedPositionA, weightedPositionB, round2]
  refine ⟨h, by rw [h]; norm_num, ?_⟩
  norm_num [BybitClient.accountLeverageCalc,
    BybitClient.calculateTotalNotionalValue, weightedExample,
    weightedPositionA, weightedPositionB, round2]

/-- C4 (amended): outside a backoff window, a success resets the state to
(0, no backoff); a failure increments the counter; once the counter reaches
5 the backoff is `now + 60s * 2^min(count-5, 5)`, below 5 the stored
backoff time is untouched. The resulting schedule is 60s at the 5th
failure, 120s at the 6th, 960s at the 9th, and 1920s — the actual cap —
from the 10th failure on (the claim's 960s at 10 failures is wrong). -/
theorem c4_backoff_schedule_amended (now : ℕ)
    (st : DataFetcherService.FetchState) (d : ExchangeData)
    (hnb : ¬ st.backoffUntil > now) :
    DataFetcherService.fetchExchangeData now st (.ok d) =
      { errorCount := 0, backoffUntil := 0 }
    ∧ (DataFetcherService.fetchExchangeData now st (.error ())).errorCount =
      st.errorCount + 1
    ∧ (5 ≤ st.errorCount + 1 →
      (DataFetcherService.fetchExchangeData now st (.error ())).backoffUntil =
        now + 60000 * 2 ^ min (st.errorCount + 1 - 5) 5)
    ∧ (st.errorCount + 1 < 5 →
      (DataFetcherService.fetchExchangeData now st (.error ())).backoffUntil =
        st.backoffUntil)
    ∧ (st.errorCount = 4 →
      (DataFetcherService.fetchExchangeData now st (.error ())).backoffUntil =
        now + 60000)
    ∧ (st.errorCount = 5 →
      (DataFetcherService.fetchExchangeData now st (.error ())).backoffUntil =
        now + 120000)
    ∧ (st.errorCount = 8 →
      (DataFetcherService.fetchExchangeData now st (.error ())).backoffUntil =
        now + 960000)
    ∧ (9 ≤ st.errorCount →
      (DataFetcherService.fetchExchangeData now st (.error ())).backoffUntil =
        now + 1920000) := by
  obtain ⟨ec, bu⟩ := st
  dsimp only at hnb ⊢
  simp only [not_lt] at hnb
  refine ⟨?_, ?_, ?_, ?_, ?_, ?_, ?_, ?_⟩
  · simp [DataFetcherService.fetchExchangeData, Nat.not_lt.mpr hnb]
  · simp only [DataFetcherService.fetchExchangeData,
      DataFetcherService.MAX_CONSECUTIVE_ERRORS, if_neg (Nat.not_lt.mpr hnb)]
    split <;> rfl
  · intro h
    simp only [DataFetcherService.fetchExchangeData,
      DataFetcherService.MAX_CONSECUTIVE_ERRORS,
      DataFetcherService.INITIAL_BACKOFF, if_neg (Nat.not_lt.mpr hnb)]
    rw [if_pos h]
  · intro h
    simp only [DataFetcherService.fetchExchangeData,
      DataFetcherService.MAX_CONSECUTIVE_ERRORS, if_neg (Nat.not_lt.mpr hnb)]
    rw [if_neg (by omega)]
  · rintro rfl
    simp only [DataFetcherService.fetchExchangeData,
      DataFetcherService.MAX_CONSECUTIVE_ERRORS,
      DataFetcherService.INITIAL_BACKOFF, if_neg (Nat.not_lt.mpr hnb)]
    norm_num
  · rintro rfl
    simp only [DataFetcherService.fetchExchangeData,
      DataFetcherService.MAX_CONSECUTIVE_ERRORS,
      DataFetcherService.INITIAL_BACKOFF, if_neg (Nat.not_lt.mpr hnb)]
    norm_num
  · rintro rfl
    simp only [DataFetcherService.fetchExchangeData,
      DataFetcherService.MAX_CONSECUTIVE_ERRORS,
      DataFetcherService.INITIAL_BACKOFF, if_neg (Nat.not_lt.mpr hnb)]
    norm_num
  · intro h
    simp only [DataFetcherService.fetchExchangeData,
      DataFetcherService.MAX_CONSECUTIVE_ERRORS,
      DataFetcherService.INITIAL_BACKOFF, if_neg (Nat.not_lt.mpr hnb)]
    rw [if_pos (by omega)]
    have hmin : min (ec + 1 - 5) 5 = 5 := by omega
    rw [hmin]
    norm_num

/-- Witness for C4 at the 5th consecutive failure (state count 4). -/
theorem c4_backoff_schedule_amended_witness :
    DataFetcherService.fetchExchangeData 1000 ⟨4, 0⟩
        (.ok (BinanceClient.initialLastValidData "futures")) =
      { errorCount := 0, backoffUntil := 0 }
    ∧ (DataFetcherService.fetchExchangeData 1000 ⟨4, 0⟩
        (.error ())).errorCount = 4 + 1
    ∧ (5 ≤ 4 + 1 →
      (DataFetcherService.fetchExchangeData 1000 ⟨4, 0⟩
          (.error ())).backoffUntil = 1000 + 60000 * 2 ^ min (4 + 1 - 5) 5)
    ∧ (4 + 1 < 5 →
      (DataFetcherService.fetchExchangeData 1000 ⟨4, 0⟩
          (.error ())).backoffUntil = 0)
    ∧ ((4 : ℕ) = 4 →
      (DataFetcherService.fetchExchangeData 1000 ⟨4, 0⟩
          (.error ())).backoffUntil = 1000 + 60000)
    ∧ ((4 : ℕ) = 5 →
      (DataFetcherService.fetchExchangeData 1000 ⟨4, 0⟩
          (.error ())).backoffUntil = 1000 + 120000)
    ∧ ((4 : ℕ) = 8 →
      (DataFetcherService.fetchExchangeData 1000 ⟨4, 0⟩
          (.error ())).backoffUntil = 1000 + 960000)
    ∧ (9 ≤ 4 →
      (DataFetcherService.fetchExchangeData 1000 ⟨4, 0⟩
          (.error ())).backoffUntil = 1000 + 1920000) :=
  c4_backoff_schedule_amended 1000 ⟨4, 0⟩
    (BinanceClient.initialLastValidData "futures") (by decide)

/-- C4 fails as stated: after 10 consecutive failures (ticks spaced outside
every backoff window) the stored backoff is now + 1920s, not the claimed
now + 960s; the cap of `2^min(count-5, 5)` is reached at the 10th failure
with multiplier 32, not at the claimed 960s value. -/
theorem c4_backoff_counterexample :
    runFailures tenFailureTimes ⟨0, 0⟩ =
      { errorCount := 10, backoffUntil := 101920000 }
    ∧ (runFailures tenFailureTimes ⟨0, 0⟩).backoffUntil ≠
      100000000 + 960000 := by
  refine ⟨?_, ?_⟩ <;> decide

/-- C5: the claim holds at the guarded Bybit and portfolio-margin call
sites (zero or non-positive equity yields margin ratio 0), but the Binance
futures branch divides by `totalMarginBalance` unguarded: at maintenance
margin 10 and equity 0 it produces a non-finite number (`none`), not 0,
and at equity -100 it produces -10, not 0. -/
theorem c5_margin_ratio_divzero_eval :
    BinanceClient.futuresMarginRatio ⟨0, 10⟩ = none
    ∧ (BinanceClient.processAccountSummaryFutures ⟨0, 10⟩ [] 0
        0).accountMarginRatio = none
    ∧ BinanceClient.futuresMarginRatio ⟨-100, 10⟩ = some (-10)
    ∧ BybitClient.marginRatio ⟨0, 0, 10⟩ = 0
    ∧ BybitClient.marginRatio ⟨-100, 0, 10⟩ = 0
    ∧ BinanceClient.pmMarginRatio ⟨0, 10, 0⟩ = 0 := by
  refine ⟨?_, ?_, ?_, ?_, ?_, ?_⟩
  · norm_num [BinanceClient.futuresMarginRatio, round2]
  · norm_num [BinanceClient.processAccountSummaryFutures,
      BinanceClient.futuresMarginRatio, round2]
  · norm_num [BinanceClient.futuresMarginRatio, round2]
  · norm_num [BybitClient.marginRatio, round2]
  · norm_num [BybitClient.marginRatio, round2]
  · norm_num [BinanceClient.pmMarginRatio, round2]

/-- C6 (amended): both normalization paths return 0 when the liquidation
price is 0. The Binance path equals the absolute formula
`|mark - liq| / mark * 100` (rounded) and is non-negative whenever
markPrice > 0. The Bybit path is direction-aware and signed —
`(liq - mark)` for LONG, `(mark - liq)` for SHORT, over mark — so for a
LONG position whose liquidation price is at or below the mark it is ≤ 0,
not the claimed non-negative absolute distance. -/
theorem c6_liquidation_distance_amended (mark liq : ℚ) (side : Side)
    (hmark : 0 < mark) :
    BinanceClient.calculateLiquidationDistance mark 0 = 0
    ∧ BybitClient.calculateLiquidationDistance mark 0 side = 0
    ∧ 0 ≤ BinanceClient.calculateLiquidationDistance mark liq
    ∧ (liq ≠ 0 → BinanceClient.calculateLiquidationDistance mark liq =
      round2 (|mark - liq| / mark * 100))
    ∧ (liq ≠ 0 → liq ≤ mark →
      BybitClient.calculateLiquidationDistance mark liq Side.LONG ≤ 0)
    ∧ (liq ≠ 0 → liq ≤ mark →
      0 ≤ BybitClient.calculateLiquidationDistance mark liq Side.SHORT) := by
  refine ⟨?_, ?_, ?_, ?_, ?_, ?_⟩
  · simp [BinanceClient.calculateLiquidationDistance]
  · simp [BybitClient.calculateLiquidationDistance]
  · by_cases hl : liq = 0
    · simp [BinanceClient.calculateLiquidationDistance, hl]
    · rw [BinanceClient.calculateLiquidationDistance, if_neg hl]
      exact round2_nonneg
        (mul_nonneg (div_nonneg (abs_nonneg _) hmark.le) (by norm_num))
  · intro hl
    rw [BinanceClient.calculateLiquidationDistance, if_neg hl]
  · intro hl hle
    rw [BybitClient.calculateLiquidationDistance, if_neg hl]
    simp only [if_pos rfl]
    apply round2_nonpos
    apply mul_nonpos_of_nonpos_of_nonneg _ (by norm_num)
    exact div_nonpos_iff.mpr (Or.inr ⟨sub_nonpos.mpr hle, hmark.le⟩)
  · intro hl hle
    rw [BybitClient.calculateLiquidationDistance, if_neg hl]
    rw [if_neg (by simp)]
    apply round2_nonneg
    exact mul_nonneg (div_nonneg (sub_nonneg.mpr hle) hmark.le) (by norm_num)

/-- Witness for C6 at mark 100, liquidation price 90, side LONG. -/
theorem c6_liquidation_distance_amended_witness :
    BinanceClient.calculateLiquidationDistance 100 0 = 0
    ∧ BybitClient.calculateLiquidationDistance 100 0 Side.LONG = 0
    ∧ 0 ≤ BinanceClient.calculateLiquidationDistance 100 90
    ∧ ((90 : ℚ) ≠ 0 → BinanceClient.calculateLiquidationDistance 100 90 =
      round2 (|(100 : ℚ) - 90| / 100 * 100))
    ∧ ((90 : ℚ) ≠ 0 → (90 : ℚ) ≤ 100 →
      BybitClient.calculateLiquidationDistance 100 90 Side.LONG ≤ 0)
    ∧ ((90 : ℚ) ≠ 0 → (90 : ℚ) ≤ 100 →
      0 ≤ BybitClient.calculateLiquidationDistance 100 90 Side.SHORT) :=
  c6_liquidation_distance_amended 100 90 Side.LONG (by norm_num)

/-- C6 fails as stated on the Bybit path: at mark 100, liquidation price
90, LONG, the Bybit distance is -10 — negative and different from the
absolute formula, which gives 10 (the Binance path's value). -/
theorem c6_liquidation_distance_counterexample :
    BybitClient.calculateLiquidationDistance 100 90 Side.LONG = -10
    ∧ ¬ (0 ≤ BybitClient.calculateLiquidationDistance 100 90 Side.LONG)
    ∧ BinanceClient.calculateLiquidationDistance 100 90 = 10 := by
  have h : BybitClient.calculateLiquidationDistance 100 90 Side.LONG = -10 := by
    norm_num [BybitClient.calculateLiquidationDistance, round2]
  refine ⟨h, by rw [h]; norm_num, ?_⟩
  norm_num [BinanceClient.calculateLiquidationDistance, round2]

/-- C7 (amended): the liquidation-price estimation fallback exists only on
the portfolio-margin normalization path. There, the scenario record
normalizes to side SHORT, size 0.50, notional 30000.00, and the estimated
liquidation price 66780 — non-zero and strictly above 60000, as claimed. -/
theorem c7_pm_normalization :
    (BinanceClient.processPMPosition [] rawBtcPM).side = Side.SHORT
    ∧ (BinanceClient.processPMPosition [] rawBtcPM).size = 1/2
    ∧ (BinanceClient.processPMPosition [] rawBtcPM).notionalValue = 30000
    ∧ (BinanceClient.processPMPosition [] rawBtcPM).liquidationPrice = 66780
    ∧ 60000 < (BinanceClient.processPMPosition [] rawBtcPM).liquidationPrice := by
  have hinc : (jsIncludes "BTCUSDT" "_" || jsIncludes "BTCUSDT" "USD_") =
      false := rfl
  refine ⟨?_, ?_, ?_, ?_, ?_⟩ <;>
    norm_num [BinanceClient.processPMPosition, rawBtcPM, hinc, round2]

/-- C7 fails as stated on the futures normalization path: the same raw
record normalizes there to side SHORT, size 0.50, notional 30000.00, but
the provided liquidation price 0 is used as-is — no estimation happens and
the output liquidationPrice is 0, not a value above 60000. The record does
pass the non-zero-size filter, so the futures pipeline emits it. -/
theorem c7_futures_counterexample :
    (BinanceClient.processFuturesPosition [] rawBtc).side = Side.SHORT
    ∧ (BinanceClient.processFuturesPosition [] rawBtc).size = 1/2
    ∧ (BinanceClient.processFuturesPosition [] rawBtc).notionalValue = 30000
    ∧ (BinanceClient.processFuturesPosition [] rawBtc).liquidationPrice = 0
    ∧ ¬ (60000 <
      (BinanceClient.processFuturesPosition [] rawBtc).liquidationPrice)
    ∧ BinanceClient.processPositionsFutures [rawBtc] [] =
      [BinanceClient.processFuturesPosition [] rawBtc] := by
  refine ⟨?_, ?_, ?_, ?_, ?_, ?_⟩
  · norm_num [BinanceClient.processFuturesPosition, rawBtc, round2]
  · norm_num [BinanceClient.processFuturesPosition, rawBtc, round2]
  · norm_num [BinanceClient.processFuturesPosition, rawBtc, round2]
  · norm_num [BinanceClient.processFuturesPosition, rawBtc, round2]
  · norm_num [BinanceClient.processFuturesPosition, rawBtc, round2]
  · have hfil : rawBtc.positionAmt ≠ 0 := by norm_num [rawBtc]
    simp [BinanceClient.processPositionsFutures, List.filter, hfil]

/-- C3 (amended): a failure of the account-totals, positions, or
open-orders call makes the whole cycle degrade — `getExchangeData` returns
the previous `lastValidData` unchanged and builds nothing — and on Bybit a
funding-rates failure does the same. On Binance, however, a funding-rates
failure is tolerated: the cycle still succeeds and returns a freshly built
snapshot in which every position carries funding rates 0. -/
theorem c3_fetch_failure_amended (prev : ExchangeData)
    (calls : BinanceClient.FuturesSubCalls) (bcalls : BybitClient.SubCalls)
    (accountInfo : BinanceClient.FuturesAccountInfo)
    (positionsData : List BinanceClient.RawFuturesPosition)
    (openOrders : List Unit) (bal : ℚ) :
    (calls.accountInfo = .error () ∨ calls.positionsData = .error () ∨
        calls.openOrders = .error () →
      BinanceClient.getExchangeDataFutures prev calls = (prev, prev))
    ∧ (bcalls.accountInfo = .error () ∨ bcalls.positionsData = .error () ∨
        bcalls.openOrders = .error () ∨ bcalls.fundingRates = .error () →
      BybitClient.getExchangeData prev bcalls = (prev, prev))
    ∧ (∀ p ∈ (BinanceClient.getExchangeDataFutures prev
        { accountInfo := .ok accountInfo
          positionsData := .ok positionsData
          openOrders := .ok openOrders
          fundingRates := .error ()
          baseBalance := bal }).1.positions,
      p.currentFundingRate = 0 ∧ p.nextFundingRate = 0) := by
  refine ⟨?_, ?_, ?_⟩
  · obtain ⟨ai, pd, oo, fr, bb⟩ := calls
    intro h
    cases ai <;> cases pd <;> cases oo <;>
      simp_all [BinanceClient.getExchangeDataFutures]
  · obtain ⟨ai, pd, oo, fr, bb⟩ := bcalls
    intro h
    cases ai <;> cases pd <;> cases oo <;> cases fr <;>
      simp_all [BybitClient.getExchangeData]
  · intro p hp
    simp only [BinanceClient.getExchangeDataFutures,
      BinanceClient.processPositionsFutures, List.mem_map] at hp
    obtain ⟨rp, _, rfl⟩ := hp
    constructor <;>
      simp [BinanceClient.processFuturesPosition,
        BinanceClient.findFundingRate, BinanceClient.lastFundingRateOrZero,
        BinanceClient.nextFundingRateOrZero, List.find?, round2_zero]

/-- Witness for C3: a failing account call degrades both clients to the
previous snapshot, and a Binance cycle with only the funding call failing
emits fresh positions with zero funding rates. -/
theorem c3_fetch_failure_amended_witness :
    BinanceClient.getExchangeDataFutures
        (BinanceClient.initialLastValidData "futures")
        { accountInfo := .error ()
          positionsData := .ok []
          openOrders := .ok []
          fundingRates := .ok []
          baseBalance := 0 } =
      (BinanceClient.initialLastValidData "futures",
        BinanceClient.initialLastValidData "futures")
    ∧ BybitClient.getExchangeData BybitClient.initialLastValidData
        { accountInfo := .error ()
          positionsData := .ok []
          openOrders := .ok []
          fundingRates := .ok []
          baseBalance := 0 } =
      (BybitClient.initialLastValidData, BybitClient.initialLastValidData)
    ∧ (∀ p ∈ (BinanceClient.getExchangeDataFutures
        (BinanceClient.initialLastValidData "futures")
        { accountInfo := .ok ⟨1000, 100⟩
          positionsData := .ok [rawBtc]
          openOrders := .ok []
          fundingRates := .error ()
          baseBalance := 500 }).1.positions,
      p.currentFundingRate = 0 ∧ p.nextFundingRate = 0) :=
  ⟨(c3_fetch_failure_amended (BinanceClient.initialLastValidData "futures")
      { accountInfo := .error (), positionsData := .ok [],
        openOrders := .ok [], fundingRates := .ok [], baseBalance := 0 }
      { accountInfo := .error (), positionsData := .ok [],
        openOrders := .ok [], fundingRates := .ok [], baseBalance := 0 }
      ⟨1000, 100⟩ [rawBtc] [] 500).1 (Or.inl rfl),
    (c3_fetch_failure_amended BybitClient.initialLastValidData
      { accountInfo := .error (), positionsData := .ok [],
        openOrders := .ok [], fundingRates := .ok [], baseBalance := 0 }
      { accountInfo := .error (), positionsData := .ok [],
        openOrders := .ok [], fundingRates := .ok [], baseBalance := 0 }
      ⟨1000, 100⟩ [rawBtc] [] 500).2.1 (Or.inl rfl),
    (c3_fetch_failure_amended (BinanceClient.initialLastValidData "futures")
      { accountInfo := .error (), positionsData := .ok [],
        openOrders := .ok [], fundingRates := .ok [], baseBalance := 0 }
      { accountInfo := .error (), positionsData := .ok [],
        openOrders := .ok [], fundingRates := .ok [], baseBalance := 0 }
      ⟨1000, 100⟩ [rawBtc] [] 500).2.2⟩

/-- C3 fails as stated on the Binance client: in a cycle where the funding
sub-call fails but the other calls succeed, `getExchangeData` does not fail
as a unit — it returns a snapshot built from the succeeded subset (one
freshly normalized position, unlike the empty previous snapshot) and
commits it as the new `lastValidData`. -/
theorem c3_partial_data_counterexample :
    c3Calls.fundingRates = .error ()
    ∧ (BinanceClient.getExchangeDataFutures
        (BinanceClient.initialLastValidData "futures") c3Calls).1.positions =
      [BinanceClient.processFuturesPosition [] rawBtc]
    ∧ (BinanceClient.initialLastValidData "futures").positions.length = 0
    ∧ (BinanceClient.getExchangeDataFutures
        (BinanceClient.initialLastValidData "futures") c3Calls).2 =
      (BinanceClient.getExchangeDataFutures
        (BinanceClient.initialLastValidData "futures") c3Calls).1 := by
  have hfil : rawBtc.positionAmt ≠ 0 := by norm_num [rawBtc]
  refine ⟨rfl, ?_, rfl, ?_⟩
  · simp [BinanceClient.getExchangeDataFutures, c3Calls,
      BinanceClient.processPositionsFutures, List.filter, hfil]
  · simp [BinanceClient.getExchangeDataFutures, c3Calls]

/-- C8: `setCurrent` succeeds exactly when the exchange is in
`availableExchanges` and the account is in `availableAccounts[exchange]`;
on success it updates exactly the two selection pointers, and on failure
(`InvalidSelectionError`) the cache is left unchanged. -/
theorem c8_setCurrent_correct (d : DataFetcherService.CombinedData)
    (exchange account : String) :
    ((DataFetcherService.setCurrentRun d exchange account).2 = true ↔
      exchange ∈ d.availableExchanges ∧
      account ∈ (DataFetcherService.lookupList d.availableAccounts
        exchange).getD [])
    ∧ ((DataFetcherService.setCurrentRun d exchange account).2 = true →
      (DataFetcherService.setCurrentRun d exchange account).1 =
        { d with currentExchange := exchange, currentAccount := account })
    ∧ ((DataFetcherService.setCurrentRun d exchange account).2 = false →
      (DataFetcherService.setCurrentRun d exchange account).1 = d) := by
  unfold DataFetcherService.setCurrentRun
    DataFetcherService.setCurrentExchangeAndAccount
  by_cases hb : (d.availableExchanges.contains exchange &&
      ((DataFetcherService.lookupList d.availableAccounts
        exchange).getD []).contains account) = true
  · rw [if_pos hb]
    simp at hb
    simp [hb]
  · rw [if_neg hb]
    simp at hb
    simpa using hb

/-- Witness for C8: the spec's own scenario
`setCurrent('unknown-exchange', 'x')` on the initial cache. -/
theorem c8_setCurrent_correct_witness :
    (DataFetcherService.setCurrentRun DataFetcherService.initialCachedData
        "unknown-exchange" "x").2 = false
    ∧ (DataFetcherService.setCurrentRun DataFetcherService.initialCachedData
        "unknown-exchange" "x").1 = DataFetcherService.initialCachedData := by
  have h := c8_setCurrent_correct DataFetcherService.initialCachedData
    "unknown-exchange" "x"
  have hfalse : (DataFetcherService.setCurrentRun
      DataFetcherService.initialCachedData "unknown-exchange" "x").2 =
      false := by
    rcases hbool : (DataFetcherService.setCurrentRun
        DataFetcherService.initialCachedData "unknown-exchange" "x").2 with
      _ | _
    · rfl
    · exfalso
      have hmem := h.1.mp hbool
      simp [DataFetcherService.initialCachedData] at hmem
  exact ⟨hfalse, h.2.2 hfalse⟩

/-- C9: `getExchangeData` is total — in this embedding it returns an
`ExchangeData` for every input and cannot raise. What it returns is always
exactly the client's new `lastValidData` (fresh snapshot on success,
previous `lastValidData` unchanged when a required call failed), and the
constructor-seeded initial `lastValidData` is the empty snapshot with an
all-zero summary. Consequently, fed an `.ok` client result, the scheduler
either skips (inside backoff) or takes the success path and resets the
error state — its error/backoff path is only reachable from a thrown
(`.error`) result, which the clients never produce. -/
theorem c9_getExchangeData_total (accountId : String) (prev : ExchangeData)
    (calls : BinanceClient.FuturesSubCalls) (bcalls : BybitClient.SubCalls)
    (now : ℕ) (st : DataFetcherService.FetchState) (d : ExchangeData) :
    (BinanceClient.initialLastValidData accountId).positions = []
    ∧ (BinanceClient.initialLastValidData
        accountId).accountSummary.baseBalance = 0
    ∧ (BinanceClient.initialLastValidData
        accountId).accountSummary.totalNotionalValue = 0
    ∧ (BinanceClient.initialLastValidData
        accountId).accountSummary.accountLeverage = 0
    ∧ (BinanceClient.initialLastValidData
        accountId).accountSummary.openPositionsCount = 0
    ∧ (BinanceClient.initialLastValidData
        accountId).accountSummary.openOrdersCount = 0
    ∧ (BinanceClient.initialLastValidData
        accountId).accountSummary.accountMarginRatio = some 0
    ∧ (BinanceClient.initialLastValidData
        accountId).accountSummary.liquidationBuffer = 0
    ∧ BybitClient.initialLastValidData.positions = []
    ∧ (BinanceClient.getExchangeDataFutures prev calls).1 =
      (BinanceClient.getExchangeDataFutures prev calls).2
    ∧ (BybitClient.getExchangeData prev bcalls).1 =
      (BybitClient.getExchangeData prev bcalls).2
    ∧ (calls.accountInfo = .error () ∨ calls.positionsData = .error () ∨
        calls.openOrders = .error () →
      (BinanceClient.getExchangeDataFutures prev calls).1 = prev)
    ∧ (bcalls.accountInfo = .error () ∨ bcalls.positionsData = .error () ∨
        bcalls.openOrders = .error () ∨ bcalls.fundingRates = .error () →
      (BybitClient.getExchangeData prev bcalls).1 = prev)
    ∧ (st.backoffUntil > now →
      DataFetcherService.fetchExchangeData now st (.ok d) = st)
    ∧ (¬ st.backoffUntil > now →
      DataFetcherService.fetchExchangeData now st (.ok d) =
        { errorCount := 0, backoffUntil := 0 }) := by
  refine ⟨rfl, rfl, rfl, rfl, rfl, rfl, rfl, rfl, rfl, ?_, ?_, ?_, ?_,
    ?_, ?_⟩
  · obtain ⟨ai, pd, oo, fr, bb⟩ := calls
    cases ai <;> cases pd <;> cases oo <;> rfl
  · obtain ⟨ai, pd, oo, fr, bb⟩ := bcalls
    cases ai <;> cases pd <;> cases oo <;> cases fr <;> rfl
  · obtain ⟨ai, pd, oo, fr, bb⟩ := calls
    intro h
    cases ai <;> cases pd <;> cases oo <;>
      simp_all [BinanceClient.getExchangeDataFutures]
  · obtain ⟨ai, pd, oo, fr, bb⟩ := bcalls
    intro h
    cases ai <;> cases pd <;> cases oo <;> cases fr <;>
      simp_all [BybitClient.getExchangeData]
  · intro h
    simp [DataFetcherService.fetchExchangeData, h]
  · intro h
    simp [DataFetcherService.fetchExchangeData, h]

/-- Witness for C9 on a concrete successful Binance cycle, a concrete
failed Bybit cycle, and a scheduler tick outside backoff. -/
theorem c9_getExchangeData_total_witness :
    (BinanceClient.initialLastValidData "futures").positions = []
    ∧ (BinanceClient.initialLastValidData
        "futures").accountSummary.baseBalance = 0
    ∧ (BinanceClient.initialLastValidData
        "futures").accountSummary.totalNotionalValue = 0
    ∧ (BinanceClient.initialLastValidData
        "futures").accountSummary.accountLeverage = 0
    ∧ (BinanceClient.initialLastValidData
        "futures").accountSummary.openPositionsCount = 0
    ∧ (BinanceClient.initialLastValidData
        "futures").accountSummary.openOrdersCount = 0
    ∧ (BinanceClient.initialLastValidData
        "futures").accountSummary.accountMarginRatio = some 0
    ∧ (BinanceClient.initialLastValidData
        "futures").accountSummary.liquidationBuffer = 0
    ∧ BybitClient.initialLastValidData.positions = []
    ∧ (BinanceClient.getExchangeDataFutures
        (BinanceClient.initialLastValidData "futures") c3Calls).1 =
      (BinanceClient.getExchangeDataFutures
        (BinanceClient.initialLastValidData "futures") c3Calls).2
    ∧ (BybitClient.getExchangeData
        (BinanceClient.initialLastValidData "futures")
        { accountInfo := .error ()
          positionsData := .ok []
          openOrders := .ok []
          fundingRates := .ok []
          baseBalance := 0 }).1 =
      (BybitClient.getExchangeData
        (BinanceClient.initialLastValidData "futures")
        { accountInfo := .error ()
          positionsData := .ok []
          openOrders := .ok []
          fundingRates := .ok []
          baseBalance := 0 }).2
    ∧ (c3Calls.accountInfo = .error () ∨ c3Calls.positionsData = .error () ∨
        c3Calls.openOrders = .error () →
      (BinanceClient.getExchangeDataFutures
        (BinanceClient.initialLastValidData "futures") c3Calls).1 =
        BinanceClient.initialLastValidData "futures")
    ∧ ((Except.error () : Except Unit BybitClient.AccountInfo) =
          .error () ∨
        (Except.ok [] : Except Unit (List BybitClient.RawPosition)) =
          .error () ∨
        (Except.ok [] : Except Unit (List Unit)) = .error () ∨
        (Except.ok [] : Except Unit (List BybitClient.Ticker)) =
          .error () →
      (BybitClient.getExchangeData
        (BinanceClient.initialLastValidData "futures")
        { accountInfo := .error ()
          positionsData := .ok []
          openOrders := .ok []
          fundingRates := .ok []
          baseBalance := 0 }).1 =
        BinanceClient.initialLastValidData "futures")
    ∧ ((5000 : ℕ) > 200 →
      DataFetcherService.fetchExchangeData 200 ⟨0, 5000⟩
        (.ok (BybitClient.initialLastValidData)) = ⟨0, 5000⟩)
    ∧ (¬ (5000 : ℕ) > 200 →
      DataFetcherService.fetchExchangeData 200 ⟨0, 5000⟩
        (.ok (BybitClient.initialLastValidData)) =
        { errorCount := 0, backoffUntil := 0 }) :=
  c9_getExchangeData_total "futures"
    (BinanceClient.initialLastValidData "futures") c3Calls
    { accountInfo := .error ()
      positionsData := .ok []
      openOrders := .ok []
      fundingRates := .ok []
      baseBalance := 0 } 200 ⟨0, 5000⟩ BybitClient.initialLastValidData

/-- C10: `setCurrentExchangeAndAccount`, viewed over the whole service
state, never touches the per-exchange data map, the availability sets, or
the fetch bookkeeping maps — on success it mutates only the two selection
pointers, and on failure it mutates nothing at all. -/
theorem c10_setCurrent_frame (s : DataFetcherService.ServiceState)
    (exchange account : String) :
    (DataFetcherService.serviceSetCurrent s exchange
        account).1.lastFetchTimes = s.lastFetchTimes
    ∧ (DataFetcherService.serviceSetCurrent s exchange
        account).1.errorCounts = s.errorCounts
    ∧ (DataFetcherService.serviceSetCurrent s exchange
        account).1.backoffTimes = s.backoffTimes
    ∧ (DataFetcherService.serviceSetCurrent s exchange
        account).1.cachedData.exchanges = s.cachedData.exchanges
    ∧ (DataFetcherService.serviceSetCurrent s exchange
        account).1.cachedData.availableExchanges =
      s.cachedData.availableExchanges
    ∧ (DataFetcherService.serviceSetCurrent s exchange
        account).1.cachedData.availableAccounts =
      s.cachedData.availableAccounts
    ∧ ((DataFetcherService.serviceSetCurrent s exchange account).2 = false →
      (DataFetcherService.serviceSetCurrent s exchange account).1 = s) := by
  unfold DataFetcherService.serviceSetCurrent DataFetcherService.setCurrentRun
    DataFetcherService.setCurrentExchangeAndAccount
  by_cases hb : (s.cachedData.availableExchanges.contains exchange &&
      ((DataFetcherService.lookupList s.cachedData.availableAccounts
        exchange).getD []).contains account) = true
  · rw [if_pos hb]
    refine ⟨rfl, rfl, rfl, rfl, rfl, rfl, ?_⟩
    intro h
    simp at h
  · rw [if_neg hb]
    exact ⟨rfl, rfl, rfl, rfl, rfl, rfl, fun _ => rfl⟩

/-- Witness for C10 on the initial service state and a valid selection. -/
theorem c10_setCurrent_frame_witness :
    (DataFetcherService.serviceSetCurrent
        ⟨DataFetcherService.initialCachedData, [], [], []⟩ "bybit"
        "unified").1.lastFetchTimes = []
    ∧ (DataFetcherService.serviceSetCurrent
        ⟨DataFetcherService.initialCachedData, [], [], []⟩ "bybit"
        "unified").1.errorCounts = []
    ∧ (DataFetcherService.serviceSetCurrent
        ⟨DataFetcherService.initialCachedData, [], [], []⟩ "bybit"
        "unified").1.backoffTimes = []
    ∧ (DataFetcherService.serviceSetCurrent
        ⟨DataFetcherService.initialCachedData, [], [], []⟩ "bybit"
        "unified").1.cachedData.exchanges =
      DataFetcherService.initialCachedData.exchanges
    ∧ (DataFetcherService.serviceSetCurrent
        ⟨DataFetcherService.initialCachedData, [], [], []⟩ "bybit"
        "unified").1.cachedData.availableExchanges =
      DataFetcherService.initialCachedData.availableExchanges
    ∧ (DataFetcherService.serviceSetCurrent
        ⟨DataFetcherService.initialCachedData, [], [], []⟩ "bybit"
        "unified").1.cachedData.availableAccounts =
      DataFetcherService.initialCachedData.availableAccounts
    ∧ ((DataFetcherService.serviceSetCurrent
        ⟨DataFetcherService.initialCachedData, [], [], []⟩ "bybit"
        "unified").2 = false →
      (DataFetcherService.serviceSetCurrent
        ⟨DataFetcherService.initialCachedData, [], [], []⟩ "bybit"
        "unified").1 =
        ⟨DataFetcherService.initialCachedData, [], [], []⟩) :=
  c10_setCurrent_frame
    ⟨DataFetcherService.initialCachedData, [], [], []⟩ "bybit" "unified"

end ExchangeMonitor
